import Mathlib

/-!
Verification of `src/reactive.js` (jgod/reactive-js): a shallow embedding of the
`Component` class — a reactive UI tree node with keyed children and a
state-update protocol — together with theorems settling the spec's claims.

Modelling conventions:
* JS objects used as string-keyed maps (`props`, `state`) become `JSObj`,
  functions `String → Option Val`; `Object.assign` becomes `mergeStates`.
* A child entry of `_children` may be `null` in JS (the code guards with
  `el && …`), so the child list is `List (Option Child)`.
* JS object identity for the `parent` back-reference is modelled by a numeric
  `id` on each node; the single JS statement `component.parent = this`
  (line 97) is recorded both in the stored child value and in an explicit
  write log `List (Child × Nat)` returned by each child-management operation,
  so that "this call did / did not assign anyone's `parent`" is stateable.
* The key of a JS value is a `JSVal`: a string, or `undefined` (`JSVal.undef`)
  — the latter is what the property access `component.key` yields when
  `component` is a primitive string, which matters for `removeChild`.
* The overridable methods `shouldComponentUpdate` / `componentWillUpdate` /
  `componentDidUpdate` / `render` and the `setState` callback are external
  collaborators: the gate is passed as a boolean function parameter, and the
  invocations of the others are recorded in an `Event` trace in source order.
-/

/-- Values stored in `props`/`state` objects; opaque to the component code. -/
abbrev Val := Nat

/-- A JS object used as a string-keyed map (`props`, `state`, partial states). -/
abbrev JSObj := String → Option Val

/-- The empty JS object `{}`. -/
def emptyObj : JSObj := fun _ => none

/-- `Object.assign(Object.assign({}, a), b)` (line 76): shallow merge, keys of
`b` override, all other keys of `a` retained. -/
def mergeStates (a b : JSObj) : JSObj :=
  fun k => match b k with
  | some v => some v
  | none => a k

/-- A JS value in `key` position: a string, or `undefined` (e.g. the result of
reading the `key` property of a primitive string). -/
inductive JSVal where
  | undef : JSVal
  | str : String → JSVal
deriving DecidableEq, Repr

/-- A child entry as the child-management methods see it: its `key`, its
mutable `parent` back-reference (the parent's node id, or none), and an
identity tag `data` distinguishing distinct child objects with equal keys. -/
structure Child where
  key : JSVal
  parent : Option Nat
  data : Nat
deriving DecidableEq, Repr

/-- The `Component` instance state: `id` models JS object identity (for
`parent` references); the underscored fields are the constructor-initialised
instance fields of `class Component` (lines 2–7). -/
structure Component where
  id : Nat
  _key : JSVal
  _props : JSObj
  _state : JSObj
  _children : List (Option Child)
  _parent : Option Nat

/-- `constructor(key='', props={}, children=[])` (lines 2–7): state starts as
`{}`, children are stored as given (no dedup), `_parent` starts unset. -/
def construct (id : Nat) (key : String) (props : JSObj)
    (children : List (Option Child)) : Component :=
  { id := id, _key := JSVal.str key, _props := props, _state := emptyObj,
    _children := children, _parent := none }

/-- The predicate `(el) => (el && el.key === k)` used by `findIndex` in
`addChild` (line 94) and `removeChild` (line 117): a null entry never
matches. -/
def childMatch (k : JSVal) : Option Child → Bool
  | some el => decide (el.key = k)
  | none => false

/-- `addChild(component)` (lines 90–102). Returns the updated node and the
log of `*.parent = this` assignments performed (line 97 is the only one). -/
def addChild (n : Component) (component : Option Child) :
    Component × List (Child × Nat) :=
  match component with
  | none => (n, [])
  | some c =>
    match n._children.findIdx? (childMatch c.key) with
    | none =>
      ({ n with _children := n._children ++ [some { c with parent := some n.id }] },
        [(c, n.id)])
    | some i =>
      ({ n with _children := n._children.set i (some c) }, [])

/-- `addChildren(components)` (lines 107–109): `addChild` on each element in
order, accumulating the parent-write log. -/
def addChildren (n : Component) (components : List (Option Child)) :
    Component × List (Child × Nat) :=
  components.foldl (fun acc c =>
    let r := addChild acc.1 c
    (r.1, acc.2 ++ r.2)) (n, [])

/-- The argument of `removeChild`: `null`/`undefined`, a string key, or a
component. -/
inductive RCArg where
  | nullish : RCArg
  | str : String → RCArg
  | comp : Child → RCArg

/-- The string branch of `removeChild(component)` (lines 115–118). Faithful
to the source: the empty string is falsy, so it hits the `!component` early
return; otherwise the scan predicate is `el && el.key === component.key`,
and `component.key` on a primitive string is `undefined`. `splice(IDX, 1)`
is `eraseIdx`. No parent assignment occurs, so the write log is empty. -/
def removeChildKey (n : Component) (s : String) :
    Component × List (Child × Nat) :=
  if s = "" then (n, [])
  else
    match n._children.findIdx? (childMatch JSVal.undef) with
    | some i => ({ n with _children := n._children.eraseIdx i }, [])
    | none => (n, [])

/-- The dispatch of `removeChild` on its argument: a component is
re-dispatched through its key (`this.removeChild(component.key)`, line 120),
which is the string branch when the key is a string and the `!component`
early return when the key is `undefined`. -/
def removeChild (n : Component) (arg : RCArg) :
    Component × List (Child × Nat) :=
  match arg with
  | RCArg.nullish => (n, [])
  | RCArg.str s => removeChildKey n s
  | RCArg.comp c =>
    match c.key with
    | JSVal.undef => (n, [])
    | JSVal.str s => removeChildKey n s

/-- `removeChildren()` (line 124): `this._children = []`; no parent is
cleared. -/
def removeChildren (n : Component) : Component × List (Child × Nat) :=
  ({ n with _children := [] }, [])

/-- The keys of the non-null entries of a child list. -/
def childKeys (l : List (Option Child)) : List JSVal :=
  l.filterMap (fun el => el.map Child.key)

/-- The spec's invariant: no two (non-null) children share a key. -/
def distinctKeys (n : Component) : Prop :=
  (childKeys n._children).Nodup

instance (n : Component) : Decidable (distinctKeys n) := by
  unfold distinctKeys; infer_instance

/-- How many children of `l` have key `k`. -/
def countKey (l : List (Option Child)) (k : JSVal) : Nat :=
  l.countP (childMatch k)

/-- The documented child-management operations, for reachability statements. -/
inductive Op where
  | add : Option Child → Op
  | addMany : List (Option Child) → Op
  | remove : RCArg → Op
  | removeAll : Op

/-- Apply one documented operation (discarding the parent-write log). -/
def applyOp (n : Component) (op : Op) : Component :=
  match op with
  | Op.add c => (addChild n c).1
  | Op.addMany cs => (addChildren n cs).1
  | Op.remove a => (removeChild n a).1
  | Op.removeAll => (removeChildren n).1

/-- Run a sequence of documented operations from a starting node. -/
def runOps (n : Component) (ops : List Op) : Component :=
  ops.foldl applyOp n

/-- Observable invocations performed by the update protocol, in source order:
the `shouldComponentUpdate` gate call, the two lifecycle hooks, `render`, the
state commit `this._state = NEW_STATE`, and the optional callback, each with
the arguments the source passes. -/
inductive Event where
  | gateCheck : JSObj → JSObj → Event
  | willUpdate : JSObj → JSObj → Event
  | render : Bool → Event
  | didUpdate : JSObj → JSObj → Event
  | commit : JSObj → Event
  | callback : JSObj → JSObj → Event

/-- Is the event a `render` invocation? -/
def Event.isRender : Event → Bool
  | Event.render _ => true
  | _ => false

/-- Is the event a `componentWillUpdate` invocation? -/
def Event.isWillUpdate : Event → Bool
  | Event.willUpdate _ _ => true
  | _ => false

/-- Is the event a `componentDidUpdate` invocation? -/
def Event.isDidUpdate : Event → Bool
  | Event.didUpdate _ _ => true
  | _ => false

/-- Is the event a `shouldComponentUpdate` (gate) invocation? -/
def Event.isGateCheck : Event → Bool
  | Event.gateCheck _ _ => true
  | _ => false

/-- `setState(nextState, cb)` (lines 72–85). `gate` is the possibly-overridden
`shouldComponentUpdate` method; `hasCb` is whether a callback was supplied.
Returns the updated node and the trace of invocations in source order:
the gate check on `(this._props, NEW_STATE)`; if it returns true,
`componentWillUpdate(this._props, NEW_STATE)`, `render(true)` and
`componentDidUpdate(this._props, PREV_STATE)`; then the commit
`this._state = NEW_STATE` (unconditionally); then `cb(PREV_STATE,
this._props)` if supplied. -/
def setState (gate : JSObj → JSObj → Bool) (n : Component)
    (nextState : JSObj) (hasCb : Bool) : Component × List Event :=
  let PREV_STATE := n._state
  let NEW_STATE := mergeStates PREV_STATE nextState
  let renderEvents :=
    if gate n._props NEW_STATE then
      [Event.willUpdate n._props NEW_STATE, Event.render true,
        Event.didUpdate n._props PREV_STATE]
    else []
  ({ n with _state := NEW_STATE },
    Event.gateCheck n._props NEW_STATE :: renderEvents
      ++ [Event.commit NEW_STATE]
      ++ if hasCb then [Event.callback PREV_STATE n._props] else [])

/-- `forceUpdate()` (line 59): `this.render(true)` and nothing else. -/
def forceUpdate (n : Component) : Component × List Event :=
  (n, [Event.render true])

/-- `set state(nextState) { this.setState(nextState); }` (line 131): the
public setter delegates to `setState` with no callback. -/
def stateSetter (gate : JSObj → JSObj → Bool) (n : Component)
    (nextState : JSObj) : Component × List Event :=
  setState gate n nextState false

/-- Run a sequence of `setState` calls (each a partial state plus a
callback-present flag), keeping only the node. -/
def runUpdates (gate : JSObj → JSObj → Bool) (n : Component)
    (updates : List (JSObj × Bool)) : Component :=
  updates.foldl (fun m u => (setState gate m u.1 u.2).1) n

/-! ### Helper lemmas about child lists and keys -/

theorem childKeys_nil : childKeys [] = [] := rfl

theorem childKeys_cons_none (l : List (Option Child)) :
    childKeys (none :: l) = childKeys l := rfl

theorem childKeys_cons_some (c : Child) (l : List (Option Child)) :
    childKeys (some c :: l) = c.key :: childKeys l := rfl

theorem childKeys_append_some (l : List (Option Child)) (c : Child) :
    childKeys (l ++ [some c]) = childKeys l ++ [c.key] := by
  simp [childKeys]

theorem mem_childKeys_iff (l : List (Option Child)) (k : JSVal) :
    k ∈ childKeys l ↔ ∃ c : Child, some c ∈ l ∧ c.key = k := by
  simp only [childKeys, List.mem_filterMap]
  constructor
  · rintro ⟨el, hmem, hmap⟩
    cases el with
    | none => simp at hmap
    | some c => exact ⟨c, hmem, by simpa using hmap⟩
  · rintro ⟨c, hmem, hk⟩
    exact ⟨some c, hmem, by simpa using hk⟩

theorem childMatch_eq_true_iff (k : JSVal) (el : Option Child) :
    childMatch k el = true ↔ ∃ c : Child, el = some c ∧ c.key = k := by
  cases el with
  | none => simp [childMatch]
  | some c => simp [childMatch]

theorem not_mem_childKeys_of_findIdx?_none (l : List (Option Child)) (k : JSVal)
    (h : l.findIdx? (childMatch k) = none) : k ∉ childKeys l := by
  rw [List.findIdx?_eq_none_iff] at h
  intro hmem
  rcases (mem_childKeys_iff l k).1 hmem with ⟨c, hc, hk⟩
  have := h (some c) hc
  simp [childMatch, hk] at this

theorem childKeys_set_of_findIdx? :
    ∀ (l : List (Option Child)) (i : Nat) (c : Child),
      l.findIdx? (childMatch c.key) = some i →
      childKeys (l.set i (some c)) = childKeys l := by
  intro l
  induction l with
  | nil => intro i c h; simp at h
  | cons x xs ih =>
    intro i c h
    rw [List.findIdx?_cons] at h
    by_cases hx : childMatch c.key x = true
    · rw [if_pos hx] at h
      rcases (childMatch_eq_true_iff c.key x).1 hx with ⟨d, rfl, hdk⟩
      cases h
      simp [childKeys_cons_some, hdk]
    · rw [if_neg hx] at h
      rw [List.findIdx?_start_succ] at h
      rcases Option.map_eq_some'.1 h with ⟨j, hj, rfl⟩
      cases x with
      | none =>
        simp only [List.set_cons_succ, childKeys_cons_none]
        exact ih j c hj
      | some d =>
        simp only [List.set_cons_succ, childKeys_cons_some]
        rw [ih j c hj]

theorem countKey_eq_zero_of_not_mem (l : List (Option Child)) (k : JSVal)
    (h : k ∉ childKeys l) : countKey l k = 0 := by
  induction l with
  | nil => rfl
  | cons x xs ih =>
    cases x with
    | none =>
      rw [childKeys_cons_none] at h
      simpa [countKey, List.countP_cons, childMatch] using ih h
    | some c =>
      rw [childKeys_cons_some] at h
      have hk : ¬c.key = k := fun hc => h (by simp [hc])
      have hxs : k ∉ childKeys xs := fun hc => h (List.mem_cons_of_mem _ hc)
      simpa [countKey, List.countP_cons, childMatch, hk] using ih hxs

theorem countKey_le_one_of_nodup (l : List (Option Child)) (k : JSVal)
    (h : (childKeys l).Nodup) : countKey l k ≤ 1 := by
  induction l with
  | nil => simp [countKey]
  | cons x xs ih =>
    cases x with
    | none =>
      rw [childKeys_cons_none] at h
      simpa [countKey, List.countP_cons, childMatch] using ih h
    | some c =>
      rw [childKeys_cons_some, List.nodup_cons] at h
      by_cases hk : c.key = k
      · have h0 : countKey xs k = 0 :=
          countKey_eq_zero_of_not_mem xs k (hk ▸ h.1)
        have hstep : countKey (some c :: xs) k = countKey xs k + 1 := by
          simp [countKey, List.countP_cons, childMatch, hk]
        rw [hstep, h0]
      · simpa [countKey, List.countP_cons, childMatch, hk] using ih h.2

theorem addChild_preserves_nodup (n : Component) (co : Option Child)
    (h : distinctKeys n) : distinctKeys (addChild n co).1 := by
  cases co with
  | none => exact h
  | some c =>
    unfold distinctKeys at h ⊢
    cases hf : n._children.findIdx? (childMatch c.key) with
    | none =>
      have hnm := not_mem_childKeys_of_findIdx?_none _ _ hf
      simp only [addChild, hf]
      rw [childKeys_append_some]
      rw [← List.concat_eq_append]
      exact List.Nodup.concat hnm h
    | some i =>
      simp only [addChild, hf]
      rw [childKeys_set_of_findIdx? _ _ _ hf]
      exact h

theorem removeChildKey_preserves_nodup (n : Component) (s : String)
    (h : distinctKeys n) : distinctKeys (removeChildKey n s).1 := by
  by_cases hs : s = ""
  · simpa [removeChildKey, hs] using h
  · cases hf : n._children.findIdx? (childMatch JSVal.undef) with
    | some i =>
      unfold distinctKeys at h ⊢
      have hsub : List.Sublist (childKeys (n._children.eraseIdx i)) (childKeys n._children) := by
        unfold childKeys
        exact (List.eraseIdx_sublist n._children i).filterMap _
      have hres : (removeChildKey n s).1._children = n._children.eraseIdx i := by
        simp [removeChildKey, hs, hf]
      rw [hres]
      exact List.Nodup.sublist hsub h
    | none => simpa [removeChildKey, hs, hf] using h

theorem removeChild_preserves_nodup (n : Component) (arg : RCArg)
    (h : distinctKeys n) : distinctKeys (removeChild n arg).1 := by
  cases arg with
  | nullish => exact h
  | str s => exact removeChildKey_preserves_nodup n s h
  | comp c =>
    cases hk : c.key with
    | undef => simpa [removeChild, hk] using h
    | str s =>
      have := removeChildKey_preserves_nodup n s h
      simpa [removeChild, hk] using this

theorem addChildren_fst :
    ∀ (cs : List (Option Child)) (n : Component) (ws : List (Child × Nat)),
      (cs.foldl (fun acc c =>
          let r := addChild acc.1 c
          (r.1, acc.2 ++ r.2)) (n, ws)).1
        = cs.foldl (fun m c => (addChild m c).1) n := by
  intro cs
  induction cs with
  | nil => intro n ws; rfl
  | cons c cs ih =>
    intro n ws
    simp only [List.foldl_cons]
    exact ih _ _

theorem foldl_addChild_preserves_nodup :
    ∀ (cs : List (Option Child)) (n : Component), distinctKeys n →
      distinctKeys (cs.foldl (fun m c => (addChild m c).1) n) := by
  intro cs
  induction cs with
  | nil => intro n h; exact h
  | cons c cs ih =>
    intro n h
    exact ih _ (addChild_preserves_nodup n c h)

theorem addChildren_preserves_nodup (n : Component) (cs : List (Option Child))
    (h : distinctKeys n) : distinctKeys (addChildren n cs).1 := by
  unfold addChildren
  rw [addChildren_fst]
  exact foldl_addChild_preserves_nodup cs n h

theorem applyOp_preserves_nodup (n : Component) (op : Op)
    (h : distinctKeys n) : distinctKeys (applyOp n op) := by
  cases op with
  | add c => exact addChild_preserves_nodup n c h
  | addMany cs => exact addChildren_preserves_nodup n cs h
  | remove a => exact removeChild_preserves_nodup n a h
  | removeAll => exact List.nodup_nil

/-! ### Concrete fixtures for witnesses and counterexamples -/

/-- A concrete root node: `new Component('root', {}, [])`. -/
def demoNode : Component := construct 0 "root" emptyObj []

/-- A concrete child with key `"a"`. -/
def childA : Child := ⟨JSVal.str "a", none, 10⟩

/-- A concrete child with key `"b"`. -/
def childB : Child := ⟨JSVal.str "b", none, 11⟩

/-- A second, distinct child object, also with key `"b"`. -/
def childB2 : Child := ⟨JSVal.str "b", none, 12⟩

/-- A concrete parent: `new Component('p', {}, [childA, childB])`. -/
def demoParent : Component := construct 1 "p" emptyObj [some childA, some childB]

/-! ### Claim theorems -/

/-- C1 (failing input): on a node constructed with a single child of key
`"a"`, `removeChild('a')` leaves the child list unchanged — the scan predicate
`el && el.key === component.key` compares each child's key against
`component.key`, which is `undefined` when `component` is a string — and
re-dispatching through a component with key `"a"` is likewise a no-op, even
though a child with key `"a"` is present. The claim says that child is
removed. -/
theorem removeChild_by_key_is_noop_demo :
    countKey (construct 0 "n" emptyObj [some childA])._children
        (JSVal.str "a") = 1 ∧
    (removeChild (construct 0 "n" emptyObj [some childA])
        (RCArg.str "a")).1._children = [some childA] ∧
    (removeChild (construct 0 "n" emptyObj [some childA])
        (RCArg.comp ⟨JSVal.str "a", none, 99⟩)).1._children = [some childA] := by
  decide

/-- C2: for every gate and every sequence of `setState` calls, the final
state is the left-to-right shallow merge of all the partial states supplied,
regardless of whether the gate vetoed any individual update (line 83 commits
unconditionally). -/
theorem setState_final_state_is_fold_merge (gate : JSObj → JSObj → Bool)
    (n : Component) (updates : List (JSObj × Bool)) :
    (runUpdates gate n updates)._state
      = (updates.map Prod.fst).foldl mergeStates n._state := by
  induction updates generalizing n with
  | nil => rfl
  | cons u us ih => exact ih ((setState gate n u.1 u.2).1)

/-- C3: when `shouldComponentUpdate` returns false for the merged candidate
state, `setState` invokes neither `componentWillUpdate` nor `render` nor
`componentDidUpdate`, yet still commits the state to the shallow merge of the
previous state with the partial state. -/
theorem setState_gate_false_skips_hooks (gate : JSObj → JSObj → Bool)
    (n : Component) (nextState : JSObj) (hasCb : Bool)
    (h : gate n._props (mergeStates n._state nextState) = false) :
    (setState gate n nextState hasCb).1._state
      = mergeStates n._state nextState ∧
    (setState gate n nextState hasCb).2.countP Event.isWillUpdate = 0 ∧
    (setState gate n nextState hasCb).2.countP Event.isRender = 0 ∧
    (setState gate n nextState hasCb).2.countP Event.isDidUpdate = 0 := by
  refine ⟨rfl, ?_, ?_, ?_⟩ <;> cases hasCb <;>
    simp [setState, h, Event.isWillUpdate, Event.isRender, Event.isDidUpdate]

/-- Witness for C3: a gate that always vetoes, on a freshly constructed node
and an empty partial state, with a callback supplied. -/
theorem setState_gate_false_skips_hooks_witness :
    ((fun (_ _ : JSObj) => false) demoNode._props
        (mergeStates demoNode._state emptyObj) = false) ∧
    ((setState (fun _ _ => false) demoNode emptyObj true).1._state
        = mergeStates demoNode._state emptyObj ∧
      (setState (fun _ _ => false) demoNode emptyObj true).2.countP
          Event.isWillUpdate = 0 ∧
      (setState (fun _ _ => false) demoNode emptyObj true).2.countP
          Event.isRender = 0 ∧
      (setState (fun _ _ => false) demoNode emptyObj true).2.countP
          Event.isDidUpdate = 0) :=
  ⟨rfl, setState_gate_false_skips_hooks (fun _ _ => false) demoNode emptyObj
    true rfl⟩

/-- C4: when the gate returns true, the call performs, in source order:
the gate check, `componentWillUpdate(props, candidate)`, `render(true)`
(exactly one render), `componentDidUpdate(props, previous)`, the commit of
the candidate state, and then the callback `(previous, props)` if one was
supplied. -/
theorem setState_gate_true_order (gate : JSObj → JSObj → Bool)
    (n : Component) (nextState : JSObj) (hasCb : Bool)
    (h : gate n._props (mergeStates n._state nextState) = true) :
    (setState gate n nextState hasCb).2
      = [Event.gateCheck n._props (mergeStates n._state nextState),
          Event.willUpdate n._props (mergeStates n._state nextState),
          Event.render true,
          Event.didUpdate n._props n._state,
          Event.commit (mergeStates n._state nextState)]
        ++ (if hasCb then [Event.callback n._state n._props] else []) ∧
    (setState gate n nextState hasCb).2.countP Event.isRender = 1 ∧
    (setState gate n nextState hasCb).1._state
      = mergeStates n._state nextState := by
  refine ⟨?_, ?_, rfl⟩ <;> cases hasCb <;>
    simp [setState, h, Event.isRender]

/-- Witness for C4: a gate that always allows, on a freshly constructed node
and an empty partial state, with a callback supplied. -/
theorem setState_gate_true_order_witness :
    ((fun (_ _ : JSObj) => true) demoNode._props
        (mergeStates demoNode._state emptyObj) = true) ∧
    ((setState (fun _ _ => true) demoNode emptyObj true).2
        = [Event.gateCheck demoNode._props
              (mergeStates demoNode._state emptyObj),
            Event.willUpdate demoNode._props
              (mergeStates demoNode._state emptyObj),
            Event.render true,
            Event.didUpdate demoNode._props demoNode._state,
            Event.commit (mergeStates demoNode._state emptyObj)]
          ++ (if true then [Event.callback demoNode._state demoNode._props]
              else []) ∧
      (setState (fun _ _ => true) demoNode emptyObj true).2.countP
          Event.isRender = 1 ∧
      (setState (fun _ _ => true) demoNode emptyObj true).1._state
        = mergeStates demoNode._state emptyObj) :=
  ⟨rfl, setState_gate_true_order (fun _ _ => true) demoNode emptyObj true rfl⟩

/-- C5: on a node with pairwise-distinct child keys, `addChild(null)` is a
no-op; `addChild(c)` either replaces the existing child at its original
position (when a child with key `c.key` exists) or appends `c` — with its
`parent` set to this node — to the end; afterwards at most one child has key
`c.key`. -/
theorem addChild_dedup_spec (n : Component) (c : Child)
    (h : distinctKeys n) :
    addChild n none = (n, []) ∧
    countKey (addChild n (some c)).1._children c.key ≤ 1 ∧
    (match n._children.findIdx? (childMatch c.key) with
     | none =>
       (addChild n (some c)).1._children
         = n._children ++ [some { c with parent := some n.id }]
     | some i =>
       (addChild n (some c)).1._children = n._children.set i (some c)) := by
  refine ⟨rfl, ?_, ?_⟩
  · exact countKey_le_one_of_nodup _ _ (addChild_preserves_nodup n (some c) h)
  · cases hf : n._children.findIdx? (childMatch c.key) <;> simp [addChild, hf]

/-- Witness for C5: spec §8 scenario — children with keys `["a","b"]`, adding
a new child with key `"b"` replaces position 1. -/
theorem addChild_dedup_spec_witness :
    distinctKeys demoParent ∧
    (addChild demoParent none = (demoParent, []) ∧
      countKey (addChild demoParent (some childB2)).1._children
          childB2.key ≤ 1 ∧
      (match demoParent._children.findIdx? (childMatch childB2.key) with
       | none =>
         (addChild demoParent (some childB2)).1._children
           = demoParent._children
              ++ [some { childB2 with parent := some demoParent.id }]
       | some i =>
         (addChild demoParent (some childB2)).1._children
           = demoParent._children.set i (some childB2))) :=
  ⟨by decide, addChild_dedup_spec demoParent childB2 (by decide)⟩

/-- C6 (amended): the pairwise-distinct-keys invariant is preserved by every
sequence of the documented operations, provided the node's child list
satisfies it to begin with (the constructor itself stores the supplied child
list without deduplication, so the invariant must hold of the initial list). -/
theorem runOps_preserves_distinctKeys (n : Component) (ops : List Op)
    (h : distinctKeys n) : distinctKeys (runOps n ops) := by
  induction ops generalizing n with
  | nil => exact h
  | cons op ops ih => exact ih _ (applyOp_preserves_nodup n op h)

/-- Witness for C6 (amended): run a replace, a batch add, a remove and a
clear from a well-formed node. -/
theorem runOps_preserves_distinctKeys_witness :
    distinctKeys demoParent ∧
    distinctKeys (runOps demoParent
      [Op.add (some childB2), Op.addMany [some childA, none],
        Op.remove (RCArg.str "a"), Op.removeAll]) :=
  ⟨by decide, runOps_preserves_distinctKeys demoParent
    [Op.add (some childB2), Op.addMany [some childA, none],
      Op.remove (RCArg.str "a"), Op.removeAll] (by decide)⟩

/-- C6 counterexample: a node constructed with two children both keyed
`"a"` is reachable by construction plus the empty operation sequence, yet its
child keys are not pairwise distinct — the constructor performs no
deduplication. -/
theorem distinctKeys_fails_at_construction :
    ¬ distinctKeys (runOps (construct 2 "p" emptyObj
        [some ⟨JSVal.str "a", none, 0⟩, some ⟨JSVal.str "a", none, 1⟩]) []) := by
  decide

/-- C7: `addChild`'s replace branch stores the replacement child as-is —
performing no `parent` assignment (empty write log) — while the append branch
assigns `parent`; in both branches every node field other than `_children` is
unchanged. -/
theorem addChild_parent_asymmetry (n : Component) (c : Child) :
    ((addChild n (some c)).1.id = n.id ∧
      (addChild n (some c)).1._key = n._key ∧
      (addChild n (some c)).1._props = n._props ∧
      (addChild n (some c)).1._state = n._state ∧
      (addChild n (some c)).1._parent = n._parent) ∧
    (match n._children.findIdx? (childMatch c.key) with
     | some i =>
       (addChild n (some c)).2 = [] ∧
       (addChild n (some c)).1._children = n._children.set i (some c)
     | none =>
       (addChild n (some c)).2 = [(c, n.id)] ∧
       (addChild n (some c)).1._children
         = n._children ++ [some { c with parent := some n.id }]) := by
  cases hf : n._children.findIdx? (childMatch c.key) <;> simp [addChild, hf]

/-- C8: `removeChildren` empties the child list, performs no `parent`
assignment on any removed child (empty write log), and leaves every other
node field unchanged. -/
theorem removeChildren_spec (n : Component) :
    (removeChildren n).1._children = [] ∧
    (removeChildren n).2 = [] ∧
    (removeChildren n).1.id = n.id ∧
    (removeChildren n).1._key = n._key ∧
    (removeChildren n).1._props = n._props ∧
    (removeChildren n).1._state = n._state ∧
    (removeChildren n).1._parent = n._parent :=
  ⟨rfl, rfl, rfl, rfl, rfl, rfl, rfl⟩

/-- C9: `forceUpdate` invokes `render(true)` exactly once, invokes neither
the gate nor either lifecycle hook, and leaves the node (state, props, key,
children, parent) unchanged. -/
theorem forceUpdate_only_renders (n : Component) :
    forceUpdate n = (n, [Event.render true]) ∧
    (forceUpdate n).2.countP Event.isGateCheck = 0 ∧
    (forceUpdate n).2.countP Event.isWillUpdate = 0 ∧
    (forceUpdate n).2.countP Event.isDidUpdate = 0 ∧
    (forceUpdate n).2.countP Event.isRender = 1 := by
  refine ⟨rfl, ?_, ?_, ?_, ?_⟩ <;>
    simp [forceUpdate, Event.isGateCheck, Event.isWillUpdate,
      Event.isDidUpdate, Event.isRender]

/-- C10: the public `state` setter delegates to `setState` with no callback:
the resulting state is the shallow merge of the existing state with the
assigned value (not a wholesale replacement), and the full update protocol
runs (exactly one gate check, with hooks and render exactly when the gate
allows — by the delegation equality). -/
theorem state_setter_delegates_to_setState (gate : JSObj → JSObj → Bool)
    (n : Component) (nextState : JSObj) :
    stateSetter gate n nextState = setState gate n nextState false ∧
    (stateSetter gate n nextState).1._state
      = mergeStates n._state nextState ∧
    (stateSetter gate n nextState).2.countP Event.isGateCheck = 1 := by
  refine ⟨rfl, rfl, ?_⟩
  cases hg : gate n._props (mergeStates n._state nextState) <;>
    simp [stateSetter, setState, hg, Event.isGateCheck]
